import Mathlib

/-!
Shallow embedding of `src/app.py`, a single-script key-value store
simulator with TTL expiration and size accounting.

Modelling conventions:
- Python wall-clock times (`time.time()` floats) are modelled as `Rat`;
  every function of the source that calls `now()` takes the current time
  `t : Rat` as an explicit parameter.
- JSON-compatible Python values are the inductive `PyVal`; numbers are
  modelled as integers.  The constructor `PyVal.nonjson` stands for a
  Python object that `json.dumps` cannot serialize (it raises), carrying
  the string `str()` would produce for it.
- `json.loads` of the submitted text is library code outside the
  repository; handlers take its outcome as `Option PyVal` (`none` when
  the text is not valid JSON, `some v` when it parses to `v`).
- The Python dict `kv_store` is an association list with unique keys,
  in insertion order (Python dicts preserve insertion order; assignment
  to an existing key keeps its position, a new key is appended).
- `str.strip()` is `pyStrip`, dropping leading and trailing ASCII
  whitespace from the character list.
- `int(x)` on a float is `pyInt`, truncation toward zero.
-/

attribute [local semireducible] Rat.sub Rat.add Rat.mul

/-- JSON-compatible Python values (numbers modelled as integers).
`nonjson rep` models a non-JSON-serializable Python object whose
`str()` is `rep`. -/
inductive PyVal where
| null
| bool (b : Bool)
| int (n : Int)
| str (s : String)
| list (items : List PyVal)
| dict (entries : List (String × PyVal))
| nonjson (rep : String)

/-- Whether a value is a Python dict (`isinstance(parsed_value, dict)`). -/
def PyVal.isDict : PyVal → Bool
| .dict _ => true
| _ => false

/-- Lower-case hexadecimal digit character. -/
def hexDigitChar (n : Nat) : Char :=
  if n < 10 then Char.ofNat (48 + n) else Char.ofNat (87 + n % 16)

/-- JSON string escaping as `json.dumps` with `ensure_ascii=False`
performs it: escape the quote, the backslash and control characters,
leave everything else (including non-ASCII) as is. -/
def escChar (c : Char) : String :=
  if c = '"' then "\\\""
  else if c = '\\' then "\\\\"
  else if c = '\n' then "\\n"
  else if c = '\t' then "\\t"
  else if c = '\r' then "\\r"
  else if c = '\x08' then "\\b"
  else if c = '\x0c' then "\\f"
  else if c.toNat < 32 then
    "\\u00" ++ String.mk [hexDigitChar (c.toNat / 16), hexDigitChar (c.toNat % 16)]
  else String.singleton c

/-- A JSON string literal: quoted and escaped. -/
def jsonQuote (s : String) : String :=
  "\"" ++ String.join (s.data.map escChar) ++ "\""

/-- Key order used by `json.dumps(..., sort_keys=True)`: code-point
lexicographic order on the rendered key of each entry. -/
def entryKeyLE (a b : String × String) : Bool :=
  decide (a.1 ≤ b.1)

mutual
/-- `json.dumps(value, ensure_ascii=False, sort_keys=True)`: `none`
models the raised exception on a non-serializable value.  Dict entries
are rendered and then emitted in sorted key order with the default
separators. -/
def dumps : PyVal → Option String
| .null => some "null"
| .bool true => some "true"
| .bool false => some "false"
| .int n => some (toString n)
| .str s => some (jsonQuote s)
| .list items =>
    (dumpsList items).map (fun parts => "[" ++ String.intercalate ", " parts ++ "]")
| .dict entries =>
    (dumpsEntries entries).map (fun kvs =>
      "\x7b" ++ String.intercalate ", " ((kvs.mergeSort entryKeyLE).map Prod.snd) ++ "\x7d")
| .nonjson _ => none

/-- Serialize each element of a JSON array; fail if any element fails. -/
def dumpsList : List PyVal → Option (List String)
| [] => some []
| v :: rest => do
    let s ← dumps v
    let ss ← dumpsList rest
    pure (s :: ss)

/-- Serialize each dict entry to its key paired with the rendered
`"key": value` text; fail if any value fails. -/
def dumpsEntries : List (String × PyVal) → Option (List (String × String))
| [] => some []
| (k, v) :: rest => do
    let s ← dumps v
    let ss ← dumpsEntries rest
    pure ((k, jsonQuote k ++ ": " ++ s) :: ss)
end

mutual
/-- CPython `repr()` of a value, restricted to the shapes `PyVal`
models: `None`/`True`/`False`, decimal integers, single-quoted strings,
bracketed lists and brace-delimited dicts; `nonjson rep` prints `rep`. -/
def pyRepr : PyVal → String
| .null => "None"
| .bool true => "True"
| .bool false => "False"
| .int n => toString n
| .str s => "'" ++ s ++ "'"
| .list items => "[" ++ String.intercalate ", " (pyReprList items) ++ "]"
| .dict entries => "\x7b" ++ String.intercalate ", " (pyReprEntries entries) ++ "\x7d"
| .nonjson rep => rep

/-- `repr()` of each list element. -/
def pyReprList : List PyVal → List String
| [] => []
| v :: rest => pyRepr v :: pyReprList rest

/-- `repr()` of each dict entry as `'key': value`. -/
def pyReprEntries : List (String × PyVal) → List String
| [] => []
| (k, v) :: rest => ("'" ++ k ++ "': " ++ pyRepr v) :: pyReprEntries rest
end

/-- CPython `str()`: like `repr()` except a top-level string prints
unquoted. -/
def pyStr : PyVal → String
| .str s => s
| v => pyRepr v

/-- `value_size_bytes` (src/app.py lines 25-34): length in bytes of the
UTF-8 encoding of `json.dumps(value, ensure_ascii=False,
sort_keys=True)`; on a serialization exception, falls back to the UTF-8
byte length of `str(value)`. -/
def value_size_bytes (value : PyVal) : Nat :=
  match dumps value with
  | some s => s.utf8ByteSize
  | none => (pyStr value).utf8ByteSize

/-- Python `str.strip()` whitespace test (ASCII part). -/
def isPySpace (c : Char) : Bool :=
  c = ' ' || c = '\t' || c = '\n' || c = '\r' || c = '\x0b' || c = '\x0c'

/-- Drop leading whitespace characters. -/
def stripL (l : List Char) : List Char :=
  l.dropWhile isPySpace

/-- Drop trailing whitespace characters. -/
def stripR (l : List Char) : List Char :=
  (l.reverse.dropWhile isPySpace).reverse

/-- Python `str.strip()`: remove leading and trailing whitespace. -/
def pyStrip (s : String) : String :=
  String.mk (stripR (stripL s.data))

/-- Python `int(x)` on a float: truncation toward zero. -/
def pyInt (q : Rat) : Int :=
  if 0 ≤ q then q.floor else q.ceil

/-- The TTL constant `TTL_SECONDS = 60` (src/app.py line 6). -/
def TTL_SECONDS : Int := 60

/-- A stored payload: `{"value": <dict>, "created_at": <epoch_seconds>}`
(src/app.py line 13). -/
structure Payload where
  value : PyVal
  created_at : Rat

/-- The `kv_store` dict: an association list in insertion order. -/
abbrev Store := List (String × Payload)

/-- Python `k in kv_store` / `kv_store[k]` combined: first (unique)
binding of `k`. -/
def kvLookup : Store → String → Option Payload
| [], _ => none
| (k', p) :: rest, k => if k' = k then some p else kvLookup rest k

/-- Python `kv_store[k] = p`: overwrite in place if the key exists,
otherwise append. -/
def kvSet : Store → String → Payload → Store
| [], k, p => [(k, p)]
| (k', p') :: rest, k, p =>
    if k' = k then (k, p) :: rest else (k', p') :: kvSet rest k p

/-- Python `del kv_store[k]`: remove the binding of `k`. -/
def kvDel (store : Store) (k : String) : Store :=
  store.filter (fun e => decide (e.1 ≠ k))

/-- `is_expired` (src/app.py lines 22-23): `(now() - created_at) > ttl`,
with `now()` passed explicitly as `t`. -/
def is_expired (t : Rat) (created_at : Rat) (ttl : Int) : Bool :=
  decide ((ttl : Rat) < t - created_at)

/-- `cleanup_expired` (src/app.py lines 36-40): collect the keys of the
expired entries, delete each of them from the store, return how many
keys were collected. -/
def cleanup_expired (store : Store) (t : Rat) (ttl : Int) : Store × Nat :=
  let expired_keys := (store.filter (fun e => is_expired t e.2.created_at ttl)).map Prod.fst
  (expired_keys.foldl kvDel store, expired_keys.length)

/-- One row of the status DataFrame (src/app.py lines 54-63). -/
structure Row where
  cliente_id : String
  estado : String
  edad_seg : Int
  restante_seg : Int
  size_bytes : Int
  created_at_epoch : Int
deriving DecidableEq

/-- The row built for one store entry (src/app.py lines 46-63): age is
`t - created_at`, the entry is shown `Expirada` when `age > ttl`, with
truncated age, clamped remaining TTL and the JSON byte size. -/
def mkRow (t : Rat) (ttl : Int) (e : String × Payload) : Row :=
  let created_at := e.2.created_at
  let age := t - created_at
  let expired := decide ((ttl : Rat) < age)
  let size_b := value_size_bytes e.2.value
  { cliente_id := e.1
    estado := if expired then "Expirada" else "Activa"
    edad_seg := pyInt age
    restante_seg := max 0 (pyInt ((ttl : Rat) - age))
    size_bytes := (size_b : Int)
    created_at_epoch := pyInt created_at }

/-- Row order of `df.sort_values(["estado", "size_bytes"],
ascending=[True, False])`: estado ascending in string order, then
size_bytes descending. -/
def rowLE (r1 r2 : Row) : Bool :=
  decide (r1.estado < r2.estado) ||
    (decide (r1.estado = r2.estado) && decide (r2.size_bytes ≤ r1.size_bytes))

/-- `build_status_table` (src/app.py lines 42-68): one row per store
entry, evaluated at a single `t = now()`, sorted by estado ascending
then size descending. -/
def build_status_table (store : Store) (t : Rat) (ttl : Int) : List Row :=
  (store.map (mkRow t ttl)).mergeSort rowLE

/-- Outcome reported by the SET branch (src/app.py lines 98-115). -/
inductive SetMsg where
| errorEmptyKey
| errorInvalidJson
| errorNotDict
| success (key : String) (size_bytes : Nat)

/-- The SET handler (src/app.py lines 98-115): strip the key, reject an
empty key; `parsed` is the outcome of `json.loads(value_text)` (`none`
models the `JSONDecodeError`); reject a non-dict value; otherwise store
`{"value": parsed, "created_at": now()}` under the stripped key. -/
def setHandler (store : Store) (key : String) (parsed : Option PyVal) (t : Rat) :
    Store × SetMsg :=
  let k := pyStrip key
  if k = "" then (store, .errorEmptyKey)
  else
    match parsed with
    | none => (store, .errorInvalidJson)
    | some v =>
        if v.isDict then (kvSet store k ⟨v, t⟩, .success k (value_size_bytes v))
        else (store, .errorNotDict)

/-- Outcome reported by the DEL branch (src/app.py lines 117-125). -/
inductive DelMsg where
| errorEmptyKey
| warnMissing (key : String)
| success (key : String)
deriving DecidableEq

/-- The DEL handler (src/app.py lines 117-125): strip the key, reject an
empty key, warn when the stripped key is absent, otherwise delete it. -/
def delHandler (store : Store) (key : String) : Store × DelMsg :=
  let k := pyStrip key
  if k = "" then (store, .errorEmptyKey)
  else
    match kvLookup store k with
    | none => (store, .warnMissing k)
    | some _ => (kvDel store k, .success k)

/-- What the GET panel displays (src/app.py lines 153-176): a prompt
for a blank search key, a warning for a missing key, or the stored
value together with its expiry flag, truncated age and byte size. -/
inductive GetResult where
| prompt
| notFound (key : String)
| found (key : String) (value : PyVal) (expired : Bool) (age_seg : Int) (size_bytes : Nat)

/-- The GET handler (src/app.py lines 153-176): strip the search key;
a blank key only shows a prompt; otherwise look the stripped key up and
display the payload (even an expired one) or a not-found warning.  The
handler only reads the store. -/
def getHandler (store : Store) (searchKey : String) (t : Rat) (ttl : Int) : GetResult :=
  let k := pyStrip searchKey
  if k = "" then .prompt
  else
    match kvLookup store k with
    | some payload =>
        .found k payload.value (is_expired t payload.created_at ttl)
          (pyInt (t - payload.created_at)) (value_size_bytes payload.value)
    | none => .notFound k

/-- The user interactions that can touch the store in one render pass. -/
inductive Op where
| set (key : String) (parsed : Option PyVal)
| del (key : String)
| get (key : String)
| cleanup

/-- Store after one interaction: SET and DEL run their handlers, the
cleanup button runs `cleanup_expired`, and the GET panel performs no
store mutation (src/app.py lines 153-176 only read `kv_store`). -/
def step (store : Store) (op : Op) (t : Rat) (ttl : Int) : Store :=
  match op with
  | .set key parsed => (setHandler store key parsed t).1
  | .del key => (delHandler store key).1
  | .get _ => store
  | .cleanup => (cleanup_expired store t ttl).1

/-- Invariant of reachable stores: every stored key equals its own
stripped form (keys only enter the store through `pyStrip`). -/
def storeKeysTrimmed (store : Store) : Bool :=
  store.all (fun e => pyStrip e.1 == e.1)

/-- Stripping leading whitespace is idempotent. -/
lemma stripL_stripL (l : List Char) : stripL (stripL l) = stripL l :=
  List.dropWhile_idempotent isPySpace l

/-- Stripping trailing whitespace is idempotent. -/
lemma stripR_stripR (l : List Char) : stripR (stripR l) = stripR l := by
  simp [stripR, List.reverse_reverse, List.dropWhile_idempotent]

/-- The stripped list is a prefix of the original: the rest is the
reversed run of trailing whitespace. -/
lemma stripR_decomp (l : List Char) :
    l = stripR l ++ (l.reverse.takeWhile isPySpace).reverse := by
  conv_lhs => rw [← l.reverse_reverse,
    ← List.takeWhile_append_dropWhile (p := isPySpace) (l := l.reverse)]
  rw [List.reverse_append]
  rfl

/-- A list with no leading whitespace still has none after stripping
its trailing whitespace. -/
lemma stripL_stripR (l : List Char) (h : stripL l = l) :
    stripL (stripR l) = stripR l := by
  cases hsr : stripR l with
  | nil => rfl
  | cons a m =>
      have hl : l = a :: (m ++ (l.reverse.takeWhile isPySpace).reverse) := by
        conv_lhs => rw [stripR_decomp l, hsr]
        rfl
      have hpa : isPySpace a = false := by
        by_contra hcon
        rw [Bool.not_eq_false] at hcon
        rw [hl] at h
        unfold stripL at h
        rw [List.dropWhile_cons, if_pos hcon] at h
        have hle := (List.dropWhile_sublist (l := m ++ (l.reverse.takeWhile isPySpace).reverse)
          isPySpace).length_le
        rw [h] at hle
        simp at hle
      unfold stripL
      rw [List.dropWhile_cons, if_neg (by simp [hpa])]

/-- Python `strip()` is idempotent. -/
lemma pyStrip_idem (s : String) : pyStrip (pyStrip s) = pyStrip s := by
  show String.mk (stripR (stripL (stripR (stripL s.data)))) = String.mk (stripR (stripL s.data))
  rw [stripL_stripR _ (stripL_stripL s.data), stripR_stripR]

/-- Lookup after overwriting the same key. -/
lemma kvLookup_kvSet_self (store : Store) (k : String) (p : Payload) :
    kvLookup (kvSet store k p) k = some p := by
  induction store with
  | nil => simp [kvSet, kvLookup]
  | cons e rest ih =>
      obtain ⟨k', p'⟩ := e
      by_cases h : k' = k
      · simp [kvSet, kvLookup, h]
      · simp [kvSet, kvLookup, h, ih]

/-- Lookup after deleting the same key. -/
lemma kvLookup_kvDel_self (store : Store) (k : String) :
    kvLookup (kvDel store k) k = none := by
  induction store with
  | nil => rfl
  | cons e rest ih =>
      obtain ⟨k', p'⟩ := e
      by_cases h : k' = k
      · simpa [kvDel, List.filter_cons, h] using ih
      · simpa [kvDel, List.filter_cons, h, kvLookup] using ih

/-- A successful lookup is a store membership. -/
lemma kvLookup_mem (store : Store) (k : String) (p : Payload)
    (h : kvLookup store k = some p) : (k, p) ∈ store := by
  induction store with
  | nil => simp [kvLookup] at h
  | cons e rest ih =>
      obtain ⟨k', p'⟩ := e
      by_cases hk : k' = k
      · rw [kvLookup, if_pos hk] at h
        obtain rfl := Option.some.inj h
        simp [hk]
      · rw [kvLookup, if_neg hk] at h
        exact List.mem_cons_of_mem _ (ih h)

/-- Overwriting cannot drop a key. -/
lemma mem_keys_kvSet (store : Store) (k0 k : String) (p : Payload)
    (h : k0 ∈ store.map Prod.fst) : k0 ∈ (kvSet store k p).map Prod.fst := by
  induction store with
  | nil => simp at h
  | cons e rest ih =>
      obtain ⟨k', p'⟩ := e
      by_cases hk : k' = k
      · simp [kvSet, hk] at h ⊢
        rcases h with h | h
        · exact Or.inl (hk ▸ h)
        · exact Or.inr h
      · simp [kvSet, hk] at h ⊢
        rcases h with h | h
        · exact Or.inl h
        · exact Or.inr (by simpa using ih (by simpa using h))

/-- A member of the store after an overwrite was already there or is
the new binding. -/
lemma mem_kvSet (store : Store) (k : String) (p : Payload) (e : String × Payload)
    (h : e ∈ kvSet store k p) : e ∈ store ∨ e = (k, p) := by
  induction store with
  | nil => simp [kvSet] at h; simp [h]
  | cons e' rest ih =>
      obtain ⟨k', p'⟩ := e'
      by_cases hk : k' = k
      · simp [kvSet, hk] at h
        rcases h with h | h
        · exact Or.inr (by simp [h])
        · exact Or.inl (List.mem_cons_of_mem _ h)
      · simp [kvSet, hk] at h
        rcases h with h | h
        · exact Or.inl (by simp [h])
        · rcases ih h with h' | h'
          · exact Or.inl (List.mem_cons_of_mem _ h')
          · exact Or.inr h'

/-- Deleting the collected keys one by one is filtering them all out. -/
lemma foldl_kvDel_eq_filter (ks : List String) (store : Store) :
    ks.foldl kvDel store = store.filter (fun e => decide (e.1 ∉ ks)) := by
  induction ks generalizing store with
  | nil => simp
  | cons k ks ih =>
      rw [List.foldl_cons, ih, kvDel, List.filter_filter]
      have hpt : ∀ e : String × Payload,
          (decide (e.1 ∉ ks) && decide (e.1 ≠ k)) = decide (e.1 ∉ k :: ks) := by
        intro e
        by_cases h1 : e.1 = k <;> by_cases h2 : e.1 ∈ ks <;> simp [h1, h2]
      simp only [hpt]

/-- The trimmed-keys invariant, element-wise. -/
lemma storeKeysTrimmed_iff (store : Store) :
    storeKeysTrimmed store = true ↔ ∀ e ∈ store, pyStrip e.1 = e.1 := by
  simp [storeKeysTrimmed, List.all_eq_true]

/-- A key found in the store satisfies the trimmed-keys invariant. -/
lemma pyStrip_of_lookup (store : Store) (k : String) (p : Payload)
    (htr : storeKeysTrimmed store = true) (h : kvLookup store k = some p) :
    pyStrip k = k :=
  (storeKeysTrimmed_iff store).1 htr (k, p) (kvLookup_mem store k p h)

/-- With unique keys, a key appears among the keys of a filtered store
exactly when its own entry passes the filter. -/
lemma mem_filter_keys_iff (store : Store) (P : String × Payload → Bool)
    (hnd : (store.map Prod.fst).Nodup) (e : String × Payload) (he : e ∈ store) :
    e.1 ∈ (store.filter P).map Prod.fst ↔ P e = true := by
  constructor
  · intro h
    obtain ⟨e', he', hkey⟩ := List.mem_map.1 h
    obtain ⟨hes, hPe'⟩ := List.mem_filter.1 he'
    have heq : e' = e := List.inj_on_of_nodup_map hnd hes he hkey
    rw [← heq]
    exact hPe'
  · intro h
    exact List.mem_map.2 ⟨e, List.mem_filter.2 ⟨he, h⟩, rfl⟩

/-- The row order as a proposition. -/
lemma rowLE_iff (a b : Row) :
    rowLE a b = true ↔
      a.estado < b.estado ∨ (a.estado = b.estado ∧ b.size_bytes ≤ a.size_bytes) := by
  simp [rowLE]

/-- The row order is total. -/
lemma rowLE_total (a b : Row) : (rowLE a b || rowLE b a) = true := by
  rcases lt_trichotomy a.estado b.estado with h | h | h
  · simp [rowLE_iff, h]
  · rcases le_total a.size_bytes b.size_bytes with hs | hs
    · simp [rowLE_iff, h, hs]
    · simp [rowLE_iff, h, hs]
  · simp [rowLE_iff, h]

/-- The row order is transitive. -/
lemma rowLE_trans (a b c : Row) (hab : rowLE a b = true) (hbc : rowLE b c = true) :
    rowLE a c = true := by
  rw [rowLE_iff] at hab hbc ⊢
  rcases hab with h1 | ⟨h1, h1s⟩ <;> rcases hbc with h2 | ⟨h2, h2s⟩
  · exact Or.inl (lt_trans h1 h2)
  · exact Or.inl (h2 ▸ h1)
  · exact Or.inl (h1 ▸ h2)
  · exact Or.inr ⟨h1.trans h2, h1s.trans' h2s⟩

/-- C3: `is_expired(created_at, ttl)` is true exactly when
`now() - created_at` is strictly greater than `ttl`; an entry whose age
equals `ttl` exactly is not expired. -/
theorem spec_C3 (t created_at : Rat) (ttl : Int) :
    (is_expired t created_at ttl = true ↔ (ttl : Rat) < t - created_at) ∧
    (t - created_at = (ttl : Rat) → is_expired t created_at ttl = false) := by
  constructor
  · simp [is_expired]
  · intro h
    simp [is_expired, h]

theorem spec_C3_witness : is_expired 60 0 60 = false :=
  (spec_C3 60 0 60).2 (by norm_num)

/-- C5: `value_size_bytes` returns the UTF-8 byte length of the
canonical JSON serialization (sorted keys), and when serialization
raises it returns the UTF-8 byte length of the value's string
representation instead of propagating the failure. -/
theorem spec_C5 (v : PyVal) :
    (∀ s, dumps v = some s → value_size_bytes v = s.utf8ByteSize) ∧
    (dumps v = none → value_size_bytes v = (pyStr v).utf8ByteSize) := by
  constructor
  · intro s h
    simp [value_size_bytes, h]
  · intro h
    simp [value_size_bytes, h]

theorem spec_C5_witness :
    dumps (PyVal.nonjson "<object at 0x1>") = none ∧
    value_size_bytes (PyVal.nonjson "<object at 0x1>") =
      (pyStr (PyVal.nonjson "<object at 0x1>")).utf8ByteSize ∧
    dumps (PyVal.int 7) = some "7" ∧
    value_size_bytes (PyVal.int 7) = "7".utf8ByteSize :=
  ⟨rfl, (spec_C5 _).2 rfl, rfl, (spec_C5 _).1 "7" rfl⟩

/-- C7: a SET whose value text is not valid JSON (the parse outcome is
`none`) reports an error and leaves the store completely unchanged. -/
theorem spec_C7 (store : Store) (key : String) (t : Rat) :
    (setHandler store key none t).1 = store ∧
    ((setHandler store key none t).2 = SetMsg.errorEmptyKey ∨
      (setHandler store key none t).2 = SetMsg.errorInvalidJson) := by
  by_cases h : pyStrip key = "" <;> simp [setHandler, h]

/-- C2 fails as stated: the key `" "` is a non-empty string, but SET
strips it to the empty key and rejects the write, so the subsequent GET
of `" "` shows only the blank-key prompt instead of the stored value. -/
theorem spec_C2_cex :
    " " ≠ "" ∧
    (setHandler [] " " (some (PyVal.dict [])) 0).2 = SetMsg.errorEmptyKey ∧
    (setHandler [] " " (some (PyVal.dict [])) 0).1 = [] ∧
    getHandler (setHandler [] " " (some (PyVal.dict [])) 0).1 " " 0 TTL_SECONDS =
      GetResult.prompt :=
  ⟨by decide, rfl, rfl, rfl⟩

/-- C2 (amended): for every dict value and every key whose stripped
form is non-empty, SET then GET on that key before the TTL has expired
returns exactly the stored value (shown active under the stripped
key). -/
theorem spec_C2 (store : Store) (key : String) (entries : List (String × PyVal))
    (t tg : Rat) (ttl : Int) (hk : pyStrip key ≠ "") (hfresh : tg - t ≤ (ttl : Rat)) :
    getHandler (setHandler store key (some (PyVal.dict entries)) t).1 key tg ttl =
      GetResult.found (pyStrip key) (PyVal.dict entries) false (pyInt (tg - t))
        (value_size_bytes (PyVal.dict entries)) := by
  have hstore : (setHandler store key (some (PyVal.dict entries)) t).1 =
      kvSet store (pyStrip key) ⟨PyVal.dict entries, t⟩ := by
    simp [setHandler, hk, PyVal.isDict]
  rw [hstore]
  have hexp : is_expired tg t ttl = false := by
    simp only [is_expired, decide_eq_false_iff_not, not_lt]
    exact hfresh
  simp [getHandler, hk, kvLookup_kvSet_self, hexp]

theorem spec_C2_witness :
    pyStrip " k " ≠ "" ∧
    (60 : Rat) - 0 ≤ ((60 : Int) : Rat) ∧
    getHandler (setHandler [] " k " (some (PyVal.dict [("a", PyVal.int 1)])) 0).1
        " k " 60 60 =
      GetResult.found (pyStrip " k ") (PyVal.dict [("a", PyVal.int 1)]) false
        (pyInt (60 - 0)) (value_size_bytes (PyVal.dict [("a", PyVal.int 1)])) :=
  ⟨by decide, by norm_num,
    spec_C2 [] " k " [("a", PyVal.int 1)] 0 60 60 (by decide) (by norm_num)⟩

/-- C9 fails as stated: the text `[1]` is valid JSON with a non-empty
key, yet the handler rejects the non-dict value and stores nothing. -/
theorem spec_C9_cex :
    (setHandler [] "k" (some (PyVal.list [PyVal.int 1])) 0).1 = [] ∧
    (setHandler [] "k" (some (PyVal.list [PyVal.int 1])) 0).2 = SetMsg.errorNotDict :=
  ⟨rfl, rfl⟩

/-- C9 (amended): a SET with a non-empty stripped key and valid JSON is
accepted exactly when the value is a JSON object (dict) — any dict is
stored regardless of its internal structure (no `productos` or
`precio_total` check) — while a non-dict JSON value (list or scalar) is
rejected with an error and the store is unchanged. -/
theorem spec_C9 (store : Store) (key : String) (v : PyVal) (t : Rat)
    (hk : pyStrip key ≠ "") :
    (v.isDict = true →
      setHandler store key (some v) t =
        (kvSet store (pyStrip key) ⟨v, t⟩,
          SetMsg.success (pyStrip key) (value_size_bytes v))) ∧
    (v.isDict = false →
      setHandler store key (some v) t = (store, SetMsg.errorNotDict)) := by
  constructor <;> intro h <;> simp [setHandler, hk, h]

theorem spec_C9_witness :
    pyStrip "k" ≠ "" ∧
    (PyVal.dict [("x", PyVal.null)]).isDict = true ∧
    setHandler [] "k" (some (PyVal.dict [("x", PyVal.null)])) 0 =
      (kvSet [] (pyStrip "k") ⟨PyVal.dict [("x", PyVal.null)], 0⟩,
        SetMsg.success (pyStrip "k") (value_size_bytes (PyVal.dict [("x", PyVal.null)]))) ∧
    (PyVal.int 3).isDict = false ∧
    setHandler [] "k" (some (PyVal.int 3)) 0 = ([], SetMsg.errorNotDict) :=
  ⟨by decide, rfl, (spec_C9 [] "k" (PyVal.dict [("x", PyVal.null)]) 0 (by decide)).1 rfl,
    rfl, (spec_C9 [] "k" (PyVal.int 3) 0 (by decide)).2 rfl⟩

/-- C6: on a store satisfying the trimmed-keys invariant (the invariant
of every reachable store), DEL of a non-empty stored key reports
success, removes the key, and a subsequent GET of that key reports that
it is not found. -/
theorem spec_C6 (store : Store) (k : String) (p : Payload) (t : Rat) (ttl : Int)
    (htr : storeKeysTrimmed store = true) (hne : k ≠ "")
    (hmem : kvLookup store k = some p) :
    (delHandler store k).2 = DelMsg.success k ∧
    kvLookup (delHandler store k).1 k = none ∧
    getHandler (delHandler store k).1 k t ttl = GetResult.notFound k := by
  have hk : pyStrip k = k := pyStrip_of_lookup store k p htr hmem
  have hdel : delHandler store k = (kvDel store k, DelMsg.success k) := by
    simp [delHandler, hk, hne, hmem]
  rw [hdel]
  refine ⟨rfl, kvLookup_kvDel_self store k, ?_⟩
  simp [getHandler, hk, hne, kvLookup_kvDel_self store k]

theorem spec_C6_witness :
    storeKeysTrimmed [("a", ⟨PyVal.null, 0⟩)] = true ∧
    "a" ≠ "" ∧
    kvLookup [("a", ⟨PyVal.null, 0⟩)] "a" = some ⟨PyVal.null, 0⟩ ∧
    ((delHandler [("a", ⟨PyVal.null, 0⟩)] "a").2 = DelMsg.success "a" ∧
      kvLookup (delHandler [("a", ⟨PyVal.null, 0⟩)] "a").1 "a" = none ∧
      getHandler (delHandler [("a", ⟨PyVal.null, 0⟩)] "a").1 "a" 0 60 =
        GetResult.notFound "a") :=
  ⟨by decide, by decide, rfl,
    spec_C6 [("a", ⟨PyVal.null, 0⟩)] "a" ⟨PyVal.null, 0⟩ 0 60 (by decide) (by decide) rfl⟩

/-- C1: on a store with unique keys (the invariant of a Python dict),
`cleanup_expired` keeps exactly the non-expired entries — each with its
key and payload untouched, in order — and returns the number of expired
entries it removed. -/
theorem spec_C1 (store : Store) (t : Rat) (ttl : Int)
    (hnd : (store.map Prod.fst).Nodup) :
    (cleanup_expired store t ttl).1 =
      store.filter (fun e => !(is_expired t e.2.created_at ttl)) ∧
    (cleanup_expired store t ttl).2 =
      (store.filter (fun e => is_expired t e.2.created_at ttl)).length := by
  constructor
  · show ((store.filter (fun e => is_expired t e.2.created_at ttl)).map
        Prod.fst).foldl kvDel store = _
    rw [foldl_kvDel_eq_filter]
    apply List.filter_congr
    intro e he
    have hiff := mem_filter_keys_iff store
      (fun e => is_expired t e.2.created_at ttl) hnd e he
    by_cases hP : is_expired t e.2.created_at ttl = true
    · have hm := hiff.2 hP
      simp [hm, hP]
    · have hm : e.1 ∉ (store.filter
          (fun e => is_expired t e.2.created_at ttl)).map Prod.fst :=
        fun hc => hP (hiff.1 hc)
      simp only [Bool.not_eq_true] at hP
      simp [hm, hP]
  · show ((store.filter (fun e => is_expired t e.2.created_at ttl)).map
        Prod.fst).length = _
    rw [List.length_map]

theorem spec_C1_witness :
    (([("a", ⟨PyVal.null, 0⟩), ("b", ⟨PyVal.null, 90⟩)] :
        Store).map Prod.fst).Nodup ∧
    (cleanup_expired [("a", ⟨PyVal.null, 0⟩), ("b", ⟨PyVal.null, 90⟩)] 100 60).1 =
      ([("a", ⟨PyVal.null, 0⟩), ("b", ⟨PyVal.null, 90⟩)] : Store).filter
        (fun e => !(is_expired 100 e.2.created_at 60)) ∧
    (cleanup_expired [("a", ⟨PyVal.null, 0⟩), ("b", ⟨PyVal.null, 90⟩)] 100 60).2 =
      (([("a", ⟨PyVal.null, 0⟩), ("b", ⟨PyVal.null, 90⟩)] : Store).filter
        (fun e => is_expired 100 e.2.created_at 60)).length :=
  ⟨by decide,
    (spec_C1 [("a", ⟨PyVal.null, 0⟩), ("b", ⟨PyVal.null, 90⟩)] 100 60 (by decide)).1,
    (spec_C1 [("a", ⟨PyVal.null, 0⟩), ("b", ⟨PyVal.null, 90⟩)] 100 60 (by decide)).2⟩

/-- C8: the GET panel never mutates the store (in particular a read of
an expired key deletes and modifies nothing), and a key can only
disappear from the store through a DEL naming it (after stripping) or
through the cleanup button. -/
theorem spec_C8 (store : Store) (op : Op) (t : Rat) (ttl : Int) :
    (∀ key, step store (Op.get key) t ttl = store) ∧
    (∀ k, k ∈ store.map Prod.fst → k ∉ (step store op t ttl).map Prod.fst →
      (∃ key, op = Op.del key ∧ pyStrip key = k) ∨ op = Op.cleanup) := by
  refine ⟨fun _ => rfl, fun k hin hout => ?_⟩
  match op with
  | .get key => exact absurd hin hout
  | .cleanup => exact Or.inr rfl
  | .set key parsed =>
      exfalso
      apply hout
      show k ∈ ((setHandler store key parsed t).1).map Prod.fst
      unfold setHandler
      by_cases hk : pyStrip key = ""
      · simpa [hk] using hin
      · match parsed with
        | none => simpa [hk] using hin
        | some v =>
            by_cases hd : v.isDict = true
            · simpa [hk, hd] using mem_keys_kvSet store k (pyStrip key) ⟨v, t⟩ hin
            · simp only [Bool.not_eq_true] at hd
              simpa [hk, hd] using hin
  | .del key =>
      refine Or.inl ⟨key, rfl, ?_⟩
      by_contra hne
      apply hout
      show k ∈ ((delHandler store key).1).map Prod.fst
      unfold delHandler
      obtain ⟨e, he, hek⟩ := List.mem_map.1 hin
      have hmemdel : e ∈ kvDel store (pyStrip key) :=
        List.mem_filter.2 ⟨he, by
          simp only [hek, ne_eq, decide_eq_true_eq]
          exact fun h => hne h.symm⟩
      by_cases hk : pyStrip key = ""
      · simpa [hk] using hin
      · match hlook : kvLookup store (pyStrip key) with
        | none => simpa [hk, hlook] using hin
        | some _ =>
            simp only [hk, hlook, if_neg]
            exact List.mem_map.2 ⟨e, by simpa [hk, hlook] using hmemdel, hek⟩

theorem spec_C8_witness :
    "a" ∈ ([("a", ⟨PyVal.null, 0⟩)] : Store).map Prod.fst ∧
    "a" ∉ (step [("a", ⟨PyVal.null, 0⟩)] Op.cleanup 100 60).map Prod.fst ∧
    ((∃ key, Op.cleanup = Op.del key ∧ pyStrip key = "a") ∨ Op.cleanup = Op.cleanup) :=
  ⟨by decide, by decide,
    (spec_C8 [("a", ⟨PyVal.null, 0⟩)] Op.cleanup 100 60).2 "a" (by decide) (by decide)⟩

/-- C4: the status table has exactly the rows built from the store
entries (one per stored key, with computed age, remaining TTL, expiry
state and byte size), and it is sorted by status first and then by size
descending. -/
theorem spec_C4 (store : Store) (t : Rat) (ttl : Int) :
    (build_status_table store t ttl).Perm (store.map (mkRow t ttl)) ∧
    ((build_status_table store t ttl).map Row.cliente_id).Perm (store.map Prod.fst) ∧
    List.Pairwise (fun r1 r2 => rowLE r1 r2 = true) (build_status_table store t ttl) := by
  refine ⟨List.mergeSort_perm _ rowLE, ?_, List.sorted_mergeSort rowLE_trans rowLE_total _⟩
  have h1 := (List.mergeSort_perm (store.map (mkRow t ttl)) rowLE).map Row.cliente_id
  rw [List.map_map] at h1
  have h2 : (Row.cliente_id ∘ mkRow t ttl) = Prod.fst := by
    funext e
    rfl
  rwa [h2] at h1

/-- C10: every operation uses the submitted key only through its
stripped form — SET can only add the stripped key, DEL can only remove
the stripped key, GET's outcome depends only on the stripped key and
finds a stored key from any whitespace-padded input — and the
trimmed-keys invariant (no stored key carries surrounding whitespace)
is preserved by every operation. -/
theorem spec_C10 (store : Store) (key : String) (t : Rat) (ttl : Int) :
    (∀ parsed, ∀ e ∈ (setHandler store key parsed t).1, e ∈ store ∨ e.1 = pyStrip key) ∧
    (∀ e ∈ store, e ∉ (delHandler store key).1 → e.1 = pyStrip key) ∧
    (∀ key2, pyStrip key2 = pyStrip key →
      getHandler store key2 t ttl = getHandler store key t ttl) ∧
    (pyStrip key ≠ "" → ∀ p, kvLookup store (pyStrip key) = some p →
      getHandler store key t ttl =
        GetResult.found (pyStrip key) p.value (is_expired t p.created_at ttl)
          (pyInt (t - p.created_at)) (value_size_bytes p.value)) ∧
    (∀ op, storeKeysTrimmed store = true → storeKeysTrimmed (step store op t ttl) = true) := by
  refine ⟨?_, ?_, ?_, ?_, ?_⟩
  · intro parsed e he
    unfold setHandler at he
    by_cases hk : pyStrip key = ""
    · simp [hk] at he
      exact Or.inl he
    · match parsed with
      | none =>
          simp [hk] at he
          exact Or.inl he
      | some v =>
          by_cases hd : v.isDict = true
          · simp [hk, hd] at he
            rcases mem_kvSet store (pyStrip key) ⟨v, t⟩ e he with h | h
            · exact Or.inl h
            · exact Or.inr (by rw [h])
          · simp only [Bool.not_eq_true] at hd
            simp [hk, hd] at he
            exact Or.inl he
  · intro e he hnot
    unfold delHandler at hnot
    by_cases hk : pyStrip key = ""
    · simp [hk] at hnot
      exact absurd he hnot
    · match hlook : kvLookup store (pyStrip key) with
      | none =>
          simp [hk, hlook] at hnot
          exact absurd he hnot
      | some _ =>
          simp only [hk, hlook, if_neg] at hnot
          by_contra hne
          exact hnot (List.mem_filter.2 ⟨he, by simpa using hne⟩)
  · intro key2 h
    unfold getHandler
    rw [h]
  · intro hne p hp
    simp [getHandler, hne, hp]
  · intro op htr
    rw [storeKeysTrimmed_iff] at htr ⊢
    intro e he
    cases op with
    | get key' => exact htr e he
    | set key' parsed =>
        replace he : e ∈ (setHandler store key' parsed t).1 := he
        unfold setHandler at he
        by_cases hk : pyStrip key' = ""
        · simp [hk] at he
          exact htr e he
        · match parsed with
          | none =>
              simp [hk] at he
              exact htr e he
          | some v =>
              by_cases hd : v.isDict = true
              · simp [hk, hd] at he
                rcases mem_kvSet store (pyStrip key') ⟨v, t⟩ e he with h | h
                · exact htr e h
                · rw [h]
                  exact pyStrip_idem key'
              · simp only [Bool.not_eq_true] at hd
                simp [hk, hd] at he
                exact htr e he
    | del key' =>
        replace he : e ∈ (delHandler store key').1 := he
        unfold delHandler at he
        by_cases hk : pyStrip key' = ""
        · simp [hk] at he
          exact htr e he
        · match hlook : kvLookup store (pyStrip key') with
          | none =>
              simp [hk, hlook] at he
              exact htr e he
          | some _ =>
              simp only [hk, hlook, if_neg] at he
              exact htr e (List.mem_filter.1 he).1
    | cleanup =>
        replace he : e ∈ (cleanup_expired store t ttl).1 := he
        have : (cleanup_expired store t ttl).1 = store.filter
            (fun e => decide (e.1 ∉ ((store.filter
              (fun e => is_expired t e.2.created_at ttl)).map Prod.fst))) :=
          foldl_kvDel_eq_filter _ store
        rw [this] at he
        exact htr e (List.mem_filter.1 he).1

theorem spec_C10_witness :
    storeKeysTrimmed [("a", ⟨PyVal.null, 0⟩)] = true ∧
    storeKeysTrimmed
      (step [("a", ⟨PyVal.null, 0⟩)] (Op.set " b " (some (PyVal.dict []))) 0 60) = true :=
  ⟨by decide,
    (spec_C10 [("a", ⟨PyVal.null, 0⟩)] " b " 0 60).2.2.2.2
      (Op.set " b " (some (PyVal.dict []))) (by decide)⟩
